import Mathlib

/-!
Verification development for the django-cms-pagetags template tag library
(`pagetags/templatetags/page_tags.py`).

The module defines three template directives — `tags_of_pages_with_tags`,
`pages_with_tags` and `pages_similar_with` — each of which lexes the raw
token contents, parses the argument string with a Python regular expression
(`re.search`, `re.VERBOSE`), builds a value binder (static literal vs
dynamic context variable) and a directive node, and at render time runs a
query against the page/tagging data layer and writes the result into the
render context.

The embedding below models the Python string operations and the specific
regular expressions by specialised deterministic backtracking matchers
(the three patterns contain no ambiguous constructs besides the starred
optional clauses and the leading non-greedy dot-star, both of which are
modelled explicitly with Python's backtracking priority), and models the
data layer by a list of page records.
-/

namespace PageTags

/-! ### Python character classes (ASCII, as used by `re` on byte strings) -/

/-- Python regex class co `\s`: space, tab, newline, carriage return,
vertical tab, form feed. -/
def isPySpace (c : Char) : Bool :=
  c = ' ' || c = '\t' || c = '\n' || c = '\r' || c = '\x0b' || c = '\x0c'

/-- Python regex class `\d`. -/
def isPyDigit (c : Char) : Bool :=
  '0' ≤ c && c ≤ '9'

/-- Python regex class `\w` (ASCII): letters, digits, underscore. -/
def isPyWord (c : Char) : Bool :=
  ('a' ≤ c && c ≤ 'z') || ('A' ≤ c && c ≤ 'Z') || isPyDigit c || c = '_'

/-! ### Basic matching combinators over `List Char` -/

/-- Greedy match of a nonempty run of characters satisfying `p`
(regex `p+` with maximal munch; in the three patterns of the source every
`\s+` and `\d+` is followed by a token that cannot start with a character
of the same class, so maximal munch is the exact Python behaviour). -/
def run1 (p : Char → Bool) (s : List Char) : Option (List Char × List Char) :=
  let taken := s.takeWhile p
  if taken.isEmpty then none else some (taken, s.dropWhile p)

/-- Match a literal character sequence, returning the rest. -/
def lit : List Char → List Char → Option (List Char)
  | [], s => some s
  | _ :: _, [] => none
  | a :: as, c :: cs => if c = a then lit as cs else none

/-- Python `str.split(None, 1)` restricted to the case the source cares
about: returns the first whitespace-delimited word and the remainder
(with the separating whitespace run removed), or `none` when the split
yields fewer than two parts (which in Python makes the
`tag_name, arg = ...` destructuring raise `ValueError`). -/
def splitFirst (s : List Char) : Option (List Char × List Char) :=
  let s1 := s.dropWhile isPySpace
  let w := s1.takeWhile (fun c => !isPySpace c)
  let rest := (s1.dropWhile (fun c => !isPySpace c)).dropWhile isPySpace
  if w.isEmpty || rest.isEmpty then none else some (w, rest)

mutual

/-- Whitespace splitting, inside a word whose read characters are `acc`
(reversed). -/
def splitInWord (acc : List Char) : List Char → List String
  | [] => [String.mk acc.reverse]
  | c :: cs =>
    if isPySpace c then String.mk acc.reverse :: splitInGap cs
    else splitInWord (c :: acc) cs

/-- Whitespace splitting, between words. -/
def splitInGap : List Char → List String
  | [] => []
  | c :: cs => if isPySpace c then splitInGap cs else splitInWord [c] cs

end

/-- Split a string on whitespace runs, dropping empty pieces. -/
def splitWs (s : String) : List String :=
  splitInGap s.toList

/-- Modelled from the spec: `tagging.utils.parse_tag_input` is an external
collaborator (the django-tagging library, not part of this repository);
the spec describes it as shell-style word-splitting of a tag string into
individual tag tokens. Modelled as whitespace splitting. -/
def parse_tag_input (s : String) : List String := splitWs s

/-- Modelled from the spec: `shlex.split` is the Python standard library's
shell-style splitter, applied in `TagsOfTaggedPagesNode.render` to the
space-separated `page_tags` string; on quote-free input it is exactly
whitespace splitting. -/
def shlexSplit (s : String) : List String := splitWs s

/-! ### Render context and errors -/

/-- The render context, as far as this module reads it: a mapping from
variable names to string values. -/
abbrev Ctx := List (String × String)

/-- Django `Context.__getitem__` / `Context.get`: lookup by key. -/
def ctxGet (ctx : Ctx) (k : String) : Option String :=
  match ctx with
  | [] => none
  | (k', v) :: rest => if k' = k then some v else ctxGet rest k

/-- Python `context.get(k, d)`: lookup with default. -/
def ctxGetD (ctx : Ctx) (k : String) (d : String) : String :=
  (ctxGet ctx k).getD d

/-- Errors raised at template-compile time by the three tag functions:
`template.TemplateSyntaxError` for a failed lex or regex match, and the
Python `IndexError` that `parsed_tags`/`parse_slug` would raise on an
empty token (`quoted_or_var[0]`). -/
inductive TemplateError
  | syntaxError
  | indexError
deriving DecidableEq, Repr

/-! ### Value binders (StaticSlug / DynamicSlug / StaticTags / DynamicTags) -/

/-- A slug binder: `StaticSlug` is a fixed unicode value whose `bind` is a
no-op; `DynamicSlug` stores a context variable name and a current `_value`
(initialised to the empty string) that `bind` overwrites from the context. -/
inductive SlugBinder
  | static (value : String)
  | dynamic (varname : String) (value : String)
deriving DecidableEq, Repr

/-- `DynamicSlug.__init__`: `_value` starts empty. -/
def mkDynamicSlug (varname : String) : SlugBinder := .dynamic varname ""

/-- `bind(context)` for slug binders. `StaticSlug.bind` is `pass`;
`DynamicSlug.bind` does `self._value = context[self.varname]`, which raises
a key error when the variable is absent from the context. -/
def SlugBinder.bind : SlugBinder → Ctx → Except String SlugBinder
  | .static v, _ => .ok (.static v)
  | .dynamic vn _, ctx =>
    match ctxGet ctx vn with
    | some v => .ok (.dynamic vn v)
    | none => .error vn

/-- The slug value the node uses after binding (`__unicode__`). -/
def SlugBinder.value : SlugBinder → String
  | .static v => v
  | .dynamic _ v => v

/-- A tags binder: `StaticTags` is a list fixed at parse time as
`parse_tag_input(tags)`; `DynamicTags` stores a variable name and the
current list contents (initialised empty). -/
inductive TagsBinder
  | static (tags : List String)
  | dynamic (varname : String) (elems : List String)
deriving DecidableEq, Repr

/-- `StaticTags.__init__`: the list contents are `parse_tag_input(tags)`. -/
def mkStaticTags (tags : String) : TagsBinder := .static (parse_tag_input tags)

/-- `DynamicTags.__init__`: the list starts empty. -/
def mkDynamicTags (varname : String) : TagsBinder := .dynamic varname []

/-- `bind(context)` for tags binders. `StaticTags.bind` is `pass`;
`DynamicTags.bind` does `self[:] = parse_tag_input(context.get(self.varname, ''))`,
replacing the list contents, with an empty-string fallback when the
variable is absent. -/
def TagsBinder.bind : TagsBinder → Ctx → TagsBinder
  | .static ts, _ => .static ts
  | .dynamic vn _, ctx => .dynamic vn (parse_tag_input (ctxGetD ctx vn ""))

/-- The tag list the node uses after binding. -/
def TagsBinder.value : TagsBinder → List String
  | .static ts => ts
  | .dynamic _ e => e

/-! ### Token classification: `parsed_tags` and `parse_slug` -/

/-- Python `s[1:-1]`. -/
def stripEnds (s : String) : String :=
  String.mk ((s.toList.drop 1).dropLast)

/-- The quoting test of `parsed_tags`/`parse_slug`:
`quoted_or_var[0] == quoted_or_var[-1] and quoted_or_var[0] in ('"', "'")`,
defined for a nonempty character list. -/
def isQuotedTok (c0 : Char) (cl : Char) : Bool :=
  c0 = cl && (c0 = '"' || c0 = '\'')

/-- Source `parsed_tags`: a token in matching quotes becomes a
`StaticTags` built from the literal stripped of its quotes, anything else
a `DynamicTags` named by the token. Indexing an empty token raises
`IndexError` in Python, modelled as the `indexError` value. -/
def parsed_tags (quoted_or_var : String) : Except TemplateError TagsBinder :=
  match quoted_or_var.toList.head?, quoted_or_var.toList.getLast? with
  | some c0, some cl =>
    if isQuotedTok c0 cl then
      .ok (mkStaticTags (stripEnds quoted_or_var))
    else
      .ok (mkDynamicTags quoted_or_var)
  | _, _ => .error .indexError

/-- Source `parse_slug`: same decision rule producing a slug binder. -/
def parse_slug (quoted_or_var : String) : Except TemplateError SlugBinder :=
  match quoted_or_var.toList.head?, quoted_or_var.toList.getLast? with
  | some c0, some cl =>
    if isQuotedTok c0 cl then
      .ok (.static (stripEnds quoted_or_var))
    else
      .ok (mkDynamicSlug quoted_or_var)
  | _, _ => .error .indexError

/-! ### The three argument grammars

The source matches the argument string (the remainder after lexing) with
`re.search` against verbose patterns of the shape

  `(.*?) (\s+order\s+(alphabetical|chronological))* (\s+limit\s+(\d+))* \s+as\s+(\w+) \s*`

(the aggregator omits both starred clauses, the similarity directive omits
the order clause). `re.search` tries start positions left to right; at each
start the non-greedy `(.*?)` tries the shortest extension first and cannot
cross a newline; each starred clause is greedy (most iterations first,
backtracking to fewer) and captures its last iteration; all other pieces
(`\s+`, literals, `\d+`, `\w+`, the two-way alternation) are deterministic
at any position because each is followed by a token that cannot begin with
a character the greedy piece could have given back. The matchers below
implement exactly this search order. -/

/-- One iteration of the order clause: `\s+order\s+(alphabetical|chronological)`,
returning the rest of the input and the inner capture. -/
def orderIter (s : List Char) : Option (List Char × String) := do
  let (_, r1) ← run1 isPySpace s
  let r2 ← lit "order".toList r1
  let (_, r3) ← run1 isPySpace r2
  match lit "alphabetical".toList r3 with
  | some r4 => some (r4, "alphabetical")
  | none =>
    match lit "chronological".toList r3 with
    | some r4 => some (r4, "chronological")
    | none => none

/-- One iteration of the limit clause: `\s+limit\s+(\d+)`, returning the
rest of the input and the captured digit string. -/
def limitIter (s : List Char) : Option (List Char × String) := do
  let (_, r1) ← run1 isPySpace s
  let r2 ← lit "limit".toList r1
  let (_, r3) ← run1 isPySpace r2
  let (ds, r4) ← run1 isPyDigit r3
  some (r4, String.mk ds)

/-- All states a greedy star over `iter` can leave the match in, deepest
(most iterations) first — Python's backtracking priority — paired with the
group capture, which is the last iteration's capture (`none` after zero
iterations). Each iteration consumes at least one character, so fuel
`s.length + 1` is never exhausted. -/
def starChain (iter : List Char → Option (List Char × String)) :
    Nat → List Char → Option String → List (List Char × Option String)
  | 0, s, last => [(s, last)]
  | fuel + 1, s, last =>
    match iter s with
    | none => [(s, last)]
    | some (s', v) => starChain iter fuel s' (some v) ++ [(s, last)]

/-- The mandatory tail `\s+as\s+(\w+)\s*`, returning the captured result
variable name. Deterministic: maximal whitespace runs, the fixed literal,
and a maximal `\w+` run followed only by `\s*` and the end of the pattern
(the pattern is unanchored, so trailing input is ignored). -/
def asTail (s : List Char) : Option String := do
  let (_, r1) ← run1 isPySpace s
  let r2 ← lit "as".toList r1
  let (_, r3) ← run1 isPySpace r2
  let (vn, _) ← run1 isPyWord r3
  some (String.mk vn)

/-- The pattern suffix of `_parse_pages_with_tags` after the tags group:
order star, then limit star, then the `as` tail; yields the order capture,
the limit capture and the variable name. -/
def pwtTail (s : List Char) : Option (Option String × Option String × String) :=
  (starChain orderIter (s.length + 1) s none).findSome? fun st =>
    (starChain limitIter (st.1.length + 1) st.1 none).findSome? fun st' =>
      (asTail st'.1).map fun vn => (st.2, st'.2, vn)

/-- The pattern suffix of `_parse_pages_similar_with` after the slug group:
limit star then the `as` tail. -/
def pswTail (s : List Char) : Option (Option String × String) :=
  (starChain limitIter (s.length + 1) s none).findSome? fun st =>
    (asTail st.1).map fun vn => (st.2, vn)

/-- Non-greedy extension of the leading `(.*?)` at a fixed start position:
try the tail here, else consume one more character (never a newline) into
the group. `acc` holds the group's characters in reverse. -/
def dotGrow {τ : Type} (tail : List Char → Option τ) :
    List Char → List Char → Option (List Char × τ)
  | acc, s =>
    match tail s with
    | some r => some (acc.reverse, r)
    | none =>
      match s with
      | [] => none
      | c :: rest => if c = '\n' then none else dotGrow tail (c :: acc) rest

/-- `re.search` for a pattern `(.*?) tail`: try start positions left to
right, at each growing the non-greedy group; returns the group's
characters and the tail's captures. -/
def reSearch {τ : Type} (tail : List Char → Option τ) : List Char → Option (List Char × τ)
  | [] => dotGrow tail [] []
  | c :: rest =>
    match dotGrow tail [] (c :: rest) with
    | some r => some r
    | none => reSearch tail rest

/-- Python `int` on a digit string. -/
def digitsNat (s : String) : Nat :=
  s.toList.foldl (fun n c => n * 10 + (c.toNat - 48)) 0

/-! ### The three parse functions (template-compile time) -/

/-- Source `_extract_tag_content`: split the token contents on the first
whitespace run into the directive name and the argument remainder; a
missing remainder raises `TemplateSyntaxError`. -/
def extract_tag_content (contents : String) : Except TemplateError (String × String) :=
  match splitFirst contents.toList with
  | some (n, a) => .ok (String.mk n, String.mk a)
  | none => .error .syntaxError

/-- Source `_parse_tags_of_pages_with_tags`: lex, then match
`(.*?)\s+as\s+(\w+)\s*`; a failed search raises `TemplateSyntaxError`. -/
def parse_tags_of_pages_with_tags (contents : String) :
    Except TemplateError (TagsBinder × String) := do
  let (_, arg) ← extract_tag_content contents
  match reSearch asTail arg.toList with
  | none => .error .syntaxError
  | some (tags, vn) => do
    let tb ← parsed_tags (String.mk tags)
    .ok (tb, vn)

/-- Source `_parse_pages_with_tags`: lex, then match the tags group, the
optional order and limit clauses and the `as` tail; a failed search raises
`TemplateSyntaxError`; `limit and int(limit)` turns the digit capture into
a number and leaves a missing capture as `None`. -/
def parse_pages_with_tags (contents : String) :
    Except TemplateError (TagsBinder × Option String × Option Nat × String) := do
  let (_, arg) ← extract_tag_content contents
  match reSearch pwtTail arg.toList with
  | none => .error .syntaxError
  | some (tags, ordering, limitStr, vn) => do
    let tb ← parsed_tags (String.mk tags)
    .ok (tb, ordering, limitStr.map digitsNat, vn)

/-- Source `_parse_pages_similar_with`: lex, then match the slug group,
the optional limit clause and the `as` tail. -/
def parse_pages_similar_with (contents : String) :
    Except TemplateError (SlugBinder × Option Nat × String) := do
  let (_, arg) ← extract_tag_content contents
  match reSearch pswTail arg.toList with
  | none => .error .syntaxError
  | some (slug, limitStr, vn) => do
    let sb ← parse_slug (String.mk slug)
    .ok (sb, limitStr.map digitsNat, vn)

/-! ### The data layer

Modelled from the spec: the `PageTagging` and `Page` models live in
`pagetags/models.py` and the CMS library, outside the source under
verification; the spec describes a page with a site, a `title`, a
`publication_date`, a `slug`, a denormalized space-separated `page_tags`
string, and tags attached through the external tagging layer's
associations. A `PageRec` merges a page with its (one-to-one)
`PageTagging` row; the database is a list of such records. -/
structure PageRec where
  site : Nat
  title : String
  pubDate : Nat
  slug : String
  page_tags : String
  tags : List String
deriving DecidableEq, Repr

/-- `PageTagging.objects.filter(page__site=settings.SITE_ID)`: restrict the
database to the current site, preserving order. -/
def siteScoped (db : List PageRec) (siteId : Nat) : List PageRec :=
  db.filter (fun p => p.site == siteId)

/-- Modelled from the spec: `TaggedItem.objects.get_by_model(qs, tags)` is
the external tagging layer's "matches model instances tagged with any of
these tags" operation — an order-preserving filter of the given queryset
(an empty tag list matches nothing). -/
def getByModel (qs : List PageRec) (tags : List String) : List PageRec :=
  qs.filter (fun p => tags.any (fun t => p.tags.contains t))

/-- Ascending title order, the sort key of `order_by('page__title_set__title')`. -/
def byTitle (a b : PageRec) : Prop := a.title ≤ b.title

/-- Descending publication date, the sort key of
`order_by('-page__publication_date')`. -/
def byRecency (a b : PageRec) : Prop := b.pubDate ≤ a.pubDate

instance : DecidableRel byTitle :=
  fun a b => inferInstanceAs (Decidable (a.title ≤ b.title))

instance : DecidableRel byRecency :=
  fun a b => inferInstanceAs (Decidable (b.pubDate ≤ a.pubDate))

/-- `order_by('page__title_set__title')`: sort ascending by title
(modelled as a stable sort). -/
def orderAlphabetical (qs : List PageRec) : List PageRec :=
  List.insertionSort byTitle qs

/-- `order_by('-page__publication_date')`: sort by publication date
descending (modelled as a stable sort). -/
def orderChronological (qs : List PageRec) : List PageRec :=
  List.insertionSort byRecency qs

/-- The two sequential ordering conditionals of `TaggedPagesNode.render`. -/
def applyOrdering (ordering : String) (qs : List PageRec) : List PageRec :=
  let qs := if ordering = "alphabetical" then orderAlphabetical qs else qs
  if ordering = "chronological" then orderChronological qs else qs

/-- Python slice `xs[:limit]` where `limit` may be `None`. -/
def pySlice {α : Type} (limit : Option Nat) (xs : List α) : List α :=
  match limit with
  | none => xs
  | some n => xs.take n

/-! ### Directive nodes and their render behaviour

Each `render` returns the node with its post-bind binder state (the Python
nodes mutate their binder in place), the textual output (always the empty
string), and the list of context writes performed. -/

/-- `TagsOfTaggedPagesNode`. -/
structure TagsOfTaggedPagesNode where
  parsed_tags : TagsBinder
  var_name : String
deriving DecidableEq, Repr

/-- `TagsOfTaggedPagesNode.render`: bind the tags, query the site-scoped
taggings matching the bound tags, split each matching page's cached
`page_tags` string, accumulate all tags, deduplicate into a set, and write
the set into the context variable. -/
def TagsOfTaggedPagesNode.render (node : TagsOfTaggedPagesNode) (db : List PageRec)
    (siteId : Nat) (ctx : Ctx) :
    TagsOfTaggedPagesNode × String × List (String × Finset String) :=
  let bound := node.parsed_tags.bind ctx
  let page_taggings := getByModel (siteScoped db siteId) bound.value
  let final_tag_list := page_taggings.flatMap (fun pt => shlexSplit pt.page_tags)
  (⟨bound, node.var_name⟩, "", [(node.var_name, final_tag_list.toFinset)])

/-- `TaggedPagesNode`: holds the tags binder, the ordering string (already
defaulted), the optional limit and the output variable name. -/
structure TaggedPagesNode where
  parsed_tags : TagsBinder
  ordering : String
  limit : Option Nat
  var_name : String
deriving DecidableEq, Repr

/-- Python `ordering or 'chronological'`: `None` and the empty string are
falsy. -/
def pyOrStr (a : Option String) (b : String) : String :=
  match a with
  | none => b
  | some s => if s = "" then b else s

/-- `TaggedPagesNode.__init__`. -/
def mkTaggedPagesNode (parsed_tags : TagsBinder) (ordering : Option String)
    (limit : Option Nat) (var_name : String) : TaggedPagesNode :=
  ⟨parsed_tags, pyOrStr ordering "chronological", limit, var_name⟩

/-- `TaggedPagesNode.render`: bind the tags, scope to the site, apply the
two sequential ordering conditionals, filter by the bound tags, slice to
the limit, and write the resulting page list into the context variable. -/
def TaggedPagesNode.render (node : TaggedPagesNode) (db : List PageRec)
    (siteId : Nat) (ctx : Ctx) :
    TaggedPagesNode × String × List (String × List PageRec) :=
  let bound := node.parsed_tags.bind ctx
  let qs := applyOrdering node.ordering (siteScoped db siteId)
  let page_taggings := pySlice node.limit (getByModel qs bound.value)
  ({ node with parsed_tags := bound }, "", [(node.var_name, page_taggings)])

/-- `SimilarPagesNode`. -/
structure SimilarPagesNode where
  parsed_slug : SlugBinder
  limit : Option Nat
  var_name : String
deriving DecidableEq, Repr

/-- The outcomes of `Page.objects.get(Q(site=...), Q(title_set__slug=...))`:
no match raises `Page.DoesNotExist` (caught by the node), more than one
raises `MultipleObjectsReturned` (not caught). -/
inductive PageGetError
  | doesNotExist
  | multipleObjectsReturned
deriving DecidableEq, Repr

/-- `Page.objects.get` filtered by site and slug. -/
def pageGet (db : List PageRec) (siteId : Nat) (slug : String) :
    Except PageGetError PageRec :=
  match db.filter (fun p => p.site == siteId && p.slug == slug) with
  | [] => .error .doesNotExist
  | [p] => .ok p
  | _ :: _ :: _ => .error .multipleObjectsReturned

/-- Modelled from the spec: `TaggedItem.objects.get_related(obj, qs)` is the
external tagging layer's "find items related to a given tagged item"
operation over the given candidates; modelled as the candidates other than
the page itself that share at least one tag with it. No claim depends on
its ranking. -/
def getRelated (page : PageRec) (qs : List PageRec) : List PageRec :=
  qs.filter (fun q => q != page && q.tags.any (fun t => page.tags.contains t))

/-- Exceptions that escape `SimilarPagesNode.render`: the key error from a
dynamic slug bound to a variable absent from the context, and the uncaught
`MultipleObjectsReturned`. -/
inductive RenderError
  | keyError (varname : String)
  | multipleObjectsReturned
deriving DecidableEq, Repr

/-- `SimilarPagesNode.render`: bind the slug, look the page up by site and
slug; on `DoesNotExist` return the empty string without touching the
context; otherwise write the sliced related-pages list. -/
def SimilarPagesNode.render (node : SimilarPagesNode) (db : List PageRec)
    (siteId : Nat) (ctx : Ctx) :
    Except RenderError (SimilarPagesNode × String × List (String × List PageRec)) := do
  let bound ← match node.parsed_slug.bind ctx with
    | .ok b => Except.ok b
    | .error vn => Except.error (RenderError.keyError vn)
  let node' : SimilarPagesNode := { node with parsed_slug := bound }
  match pageGet db siteId bound.value with
  | .error .doesNotExist => .ok (node', "", [])
  | .error .multipleObjectsReturned => .error .multipleObjectsReturned
  | .ok page =>
    let page_taggings := pySlice node.limit (getRelated page (siteScoped db siteId))
    .ok (node', "", [(node'.var_name, page_taggings)])

/-! ### The registered tag functions (compile-time node construction) -/

/-- Registered tag `tags_of_pages_with_tags`. -/
def tags_of_pages_with_tags (contents : String) :
    Except TemplateError TagsOfTaggedPagesNode := do
  let (tb, vn) ← parse_tags_of_pages_with_tags contents
  .ok ⟨tb, vn⟩

/-- Registered tag `pages_with_tags`. -/
def pages_with_tags (contents : String) : Except TemplateError TaggedPagesNode := do
  let (tb, ordering, limit, vn) ← parse_pages_with_tags contents
  .ok (mkTaggedPagesNode tb ordering limit vn)

/-- Registered tag `pages_similar_with`. -/
def pages_similar_with (contents : String) : Except TemplateError SimilarPagesNode := do
  let (sb, limit, vn) ← parse_pages_similar_with contents
  .ok ⟨sb, limit, vn⟩

/-! ### Example data for concrete instances -/

/-- Example page on site 1 tagged `x art`, newest. -/
def pgA : PageRec := ⟨1, "Alpha", 30, "alpha", "x art", ["x", "art"]⟩

/-- Example page on site 1 tagged `x blog`. -/
def pgB : PageRec := ⟨1, "Bravo", 20, "bravo", "x blog", ["x", "blog"]⟩

/-- Example page on site 1 tagged `x`, oldest. -/
def pgC : PageRec := ⟨1, "Chi", 10, "chi", "x", ["x"]⟩

/-- Example page on another site. -/
def pgOther : PageRec := ⟨2, "Delta", 40, "delta", "x", ["x"]⟩

/-- A small example database. -/
def exampleDb : List PageRec := [pgB, pgA, pgC, pgOther]

/-! ### Helper lemmas -/

/-- The ordering pipeline only permutes the queryset. -/
theorem mem_applyOrdering {p : PageRec} {o : String} {qs : List PageRec} :
    p ∈ applyOrdering o qs ↔ p ∈ qs := by
  unfold applyOrdering
  by_cases h1 : o = "alphabetical" <;> by_cases h2 : o = "chronological" <;>
    simp [h1, h2, orderAlphabetical, orderChronological,
      (List.perm_insertionSort _ _).mem_iff]

/-- Membership in the tag-filtered queryset. -/
theorem mem_getByModel {p : PageRec} {qs : List PageRec} {tags : List String} :
    p ∈ getByModel qs tags ↔ p ∈ qs ∧ ∃ t ∈ tags, t ∈ p.tags := by
  simp [getByModel, List.mem_filter]

instance : IsTotal PageRec byTitle := ⟨fun a b => le_total a.title b.title⟩

instance : IsTrans PageRec byTitle := ⟨fun _ _ _ h₁ h₂ => le_trans h₁ h₂⟩

instance : IsTotal PageRec byRecency := ⟨fun a b => Nat.le_total b.pubDate a.pubDate⟩

instance : IsTrans PageRec byRecency := ⟨fun _ _ _ h₁ h₂ => Nat.le_trans h₂ h₁⟩

/-! ### Claims -/

/-- C1: for `pages_with_tags`, when a limit `n` is given the page list
written into the result context variable has length at most `n`; when the
limit is absent, every site page carrying one of the bound tags is a member
of the written list (no truncation). -/
theorem taggedPages_limit_truncation (node : TaggedPagesNode) (db : List PageRec)
    (siteId : Nat) (ctx : Ctx) :
    (∀ n, node.limit = some n →
      ∀ w ∈ (node.render db siteId ctx).2.2, w.2.length ≤ n) ∧
    (node.limit = none →
      ∀ w ∈ (node.render db siteId ctx).2.2,
        ∀ p ∈ siteScoped db siteId,
          (∃ t ∈ (node.parsed_tags.bind ctx).value, t ∈ p.tags) → p ∈ w.2) := by
  constructor
  · intro n hn w hw
    simp only [TaggedPagesNode.render, List.mem_singleton] at hw
    subst hw
    simp only [hn, pySlice]
    exact List.length_take_le _ _
  · intro hn w hw p hp hmatch
    simp only [TaggedPagesNode.render, List.mem_singleton] at hw
    subst hw
    simp only [hn, pySlice]
    exact mem_getByModel.mpr ⟨mem_applyOrdering.mpr hp, hmatch⟩

/-- C1 witness: a node with limit 2 over a database with three matching
pages writes a list of length 2. -/
theorem taggedPages_limit_truncation_wit :
    (("r", [pgA, pgB]) : String × List PageRec).2.length ≤ 2 :=
  (taggedPages_limit_truncation (mkTaggedPagesNode (mkStaticTags "x") none (some 2) "r")
    exampleDb 1 []).1 2 rfl ("r", [pgA, pgB]) (by decide)

/-- C2: a `pages_with_tags` node built with no order capture renders
identically to one built with an explicit `chronological` capture (the
constructor defaults a missing ordering to chronological); a chronological
node's written page list is sorted by publication date descending, and an
alphabetical node's written page list is sorted by title. -/
theorem taggedPages_default_ordering (t : TagsBinder) (l : Option Nat) (v : String)
    (node : TaggedPagesNode) (db : List PageRec) (siteId : Nat) (ctx : Ctx) :
    ((mkTaggedPagesNode t none l v).render db siteId ctx
      = (mkTaggedPagesNode t (some "chronological") l v).render db siteId ctx) ∧
    (node.ordering = "chronological" →
      ∀ w ∈ (node.render db siteId ctx).2.2, w.2.Sorted byRecency) ∧
    (node.ordering = "alphabetical" →
      ∀ w ∈ (node.render db siteId ctx).2.2, w.2.Sorted byTitle) := by
  refine ⟨rfl, ?_, ?_⟩
  · intro ho w hw
    simp only [TaggedPagesNode.render, List.mem_singleton] at hw
    subst hw
    have hsorted : (applyOrdering node.ordering (siteScoped db siteId)).Sorted byRecency := by
      rw [ho]
      simp only [applyOrdering]
      norm_num
      exact List.sorted_insertionSort byRecency _
    have hfil : (getByModel (applyOrdering node.ordering (siteScoped db siteId))
        (node.parsed_tags.bind ctx).value).Sorted byRecency :=
      List.Pairwise.filter _ hsorted
    cases hl : node.limit with
    | none => simpa [pySlice, hl] using hfil
    | some n =>
      simp only [pySlice, hl]
      exact hfil.sublist (List.take_sublist n _)
  · intro ho w hw
    simp only [TaggedPagesNode.render, List.mem_singleton] at hw
    subst hw
    have hsorted : (applyOrdering node.ordering (siteScoped db siteId)).Sorted byTitle := by
      rw [ho]
      simp only [applyOrdering]
      norm_num
      exact List.sorted_insertionSort byTitle _
    have hfil : (getByModel (applyOrdering node.ordering (siteScoped db siteId))
        (node.parsed_tags.bind ctx).value).Sorted byTitle :=
      List.Pairwise.filter _ hsorted
    cases hl : node.limit with
    | none => simpa [pySlice, hl] using hfil
    | some n =>
      simp only [pySlice, hl]
      exact hfil.sublist (List.take_sublist n _)

/-- C2 witness: the default node's written list over the example database
is sorted by descending publication date. -/
theorem taggedPages_default_ordering_wit :
    ([pgA, pgB, pgC] : List PageRec).Sorted byRecency :=
  (taggedPages_default_ordering (mkStaticTags "x") none "r"
    (mkTaggedPagesNode (mkStaticTags "x") none none "r") exampleDb 1 []).2.1 rfl
    ("r", [pgA, pgB, pgC]) (by decide)

/-- C3: the `tags_of_pages_with_tags` render writes exactly one context
variable, holding a set whose members are precisely the tags obtained by
shell-splitting the cached tag string of some matching page, with no
duplicates. -/
theorem tagsOfTaggedPages_union_dedup (node : TagsOfTaggedPagesNode) (db : List PageRec)
    (siteId : Nat) (ctx : Ctx) :
    ∃ s : Finset String,
      (node.render db siteId ctx).2.2 = [(node.var_name, s)] ∧
      (∀ tag : String, tag ∈ s ↔
        ∃ p ∈ getByModel (siteScoped db siteId) (node.parsed_tags.bind ctx).value,
          tag ∈ shlexSplit p.page_tags) ∧
      s.val.Nodup := by
  refine ⟨_, rfl, fun tag => ?_, Finset.nodup _⟩
  simp [TagsOfTaggedPagesNode.render, List.mem_flatMap]

/-- C4: when the bound slug matches no page of the current site,
`pages_similar_with` renders to the empty string and performs no context
write, with no error. -/
theorem similarPages_missing_slug_noop (node : SimilarPagesNode) (db : List PageRec)
    (siteId : Nat) (ctx : Ctx) (b : SlugBinder)
    (hbind : node.parsed_slug.bind ctx = .ok b)
    (hmiss : ∀ p ∈ db, p.site = siteId → p.slug ≠ b.value) :
    node.render db siteId ctx = .ok ({ node with parsed_slug := b }, "", []) := by
  have hfil : db.filter (fun p => p.site == siteId && p.slug == b.value) = [] := by
    rw [List.filter_eq_nil_iff]
    intro p hp
    simp only [Bool.and_eq_true, beq_iff_eq, not_and]
    exact fun hs => hmiss p hp hs
  simp [SimilarPagesNode.render, hbind, pageGet, hfil, bind, Except.bind]

/-- C4 witness: a slug absent from the example database yields an empty
render with no context write. -/
theorem similarPages_missing_slug_noop_wit :
    (SimilarPagesNode.mk (.static "missing-slug") none "r").render exampleDb 1 [] =
      .ok (⟨.static "missing-slug", none, "r"⟩, "", []) :=
  similarPages_missing_slug_noop ⟨.static "missing-slug", none, "r"⟩ exampleDb 1 []
    (.static "missing-slug") rfl (by decide)

/-- C5: a directive invocation whose token contents carry no argument
remainder raises a template syntax error in each of the three parsers, and
so does the malformed invocation `pages_with_tags as r` (no tag argument
before `as`), whose regex search fails. -/
theorem directives_syntax_errors (contents : String)
    (h : splitFirst contents.toList = none) :
    parse_tags_of_pages_with_tags contents = .error .syntaxError ∧
    parse_pages_with_tags contents = .error .syntaxError ∧
    parse_pages_similar_with contents = .error .syntaxError ∧
    parse_pages_with_tags "pages_with_tags as r" = .error .syntaxError := by
  have h' : splitFirst contents.data = none := h
  refine ⟨?_, ?_, ?_, by rfl⟩ <;>
    simp [parse_tags_of_pages_with_tags, parse_pages_with_tags,
      parse_pages_similar_with, extract_tag_content, h', bind, Except.bind]

/-- C5 witness: a bare directive name with no arguments is a syntax error. -/
theorem directives_syntax_errors_wit :
    parse_pages_with_tags "pages_with_tags" = .error .syntaxError :=
  (directives_syntax_errors "pages_with_tags" (by decide)).2.1

/-- C6: a token whose first and last characters are the same quote
character parses to a static binder (tags and slug alike) holding the
literal stripped of its surrounding quotes, and binding a static binder is
a no-op for every context, so repeated binds yield the same value. -/
theorem static_binder_quoted_idempotent (s : String) (c0 cl : Char)
    (hh : s.toList.head? = some c0) (hl : s.toList.getLast? = some cl)
    (hq : isQuotedTok c0 cl = true) :
    parsed_tags s = .ok (.static (parse_tag_input (stripEnds s))) ∧
    parse_slug s = .ok (.static (stripEnds s)) ∧
    (∀ ts : List String, ∀ ctx : Ctx, TagsBinder.bind (.static ts) ctx = .static ts) ∧
    (∀ v : String, ∀ ctx : Ctx, SlugBinder.bind (.static v) ctx = .ok (.static v)) := by
  have hh' : s.data.head? = some c0 := hh
  have hl' : s.data.getLast? = some cl := hl
  refine ⟨?_, ?_, fun ts ctx => rfl, fun v ctx => rfl⟩ <;>
    simp [parsed_tags, parse_slug, hh', hl', hq, mkStaticTags]

/-- C6 witness: the quoted literal token evaluates to a static binder. -/
theorem static_binder_quoted_idempotent_wit :
    parsed_tags "'a b'" = .ok (.static ["a", "b"]) := by
  have h := (static_binder_quoted_idempotent "'a b'" '\'' '\'' rfl rfl (by decide)).1
  rw [h]
  rfl

/-- C7: an unquoted token parses to a dynamic binder (tags and slug
alike); a dynamic bind depends only on the variable name and the current
context, never on the previously bound value, so rendering the same
compiled `pages_with_tags` node a second time with a different context
produces exactly the render of a fresh node with that context. -/
theorem dynamic_binder_fresh_resolution (s : String) (c0 cl : Char)
    (hh : s.toList.head? = some c0) (hl : s.toList.getLast? = some cl)
    (hq : isQuotedTok c0 cl = false) :
    parsed_tags s = .ok (mkDynamicTags s) ∧
    parse_slug s = .ok (mkDynamicSlug s) ∧
    (∀ vn : String, ∀ e₁ e₂ : List String, ∀ ctx : Ctx,
      TagsBinder.bind (.dynamic vn e₁) ctx = TagsBinder.bind (.dynamic vn e₂) ctx) ∧
    (∀ vn : String, ∀ v₁ v₂ : String, ∀ ctx : Ctx,
      SlugBinder.bind (.dynamic vn v₁) ctx = SlugBinder.bind (.dynamic vn v₂) ctx) ∧
    (∀ node : TaggedPagesNode, ∀ db : List PageRec, ∀ siteId : Nat, ∀ ctx₁ ctx₂ : Ctx,
      ((node.render db siteId ctx₁).1).render db siteId ctx₂ =
        node.render db siteId ctx₂) := by
  have hh' : s.data.head? = some c0 := hh
  have hl' : s.data.getLast? = some cl := hl
  refine ⟨?_, ?_, fun vn e₁ e₂ ctx => rfl, fun vn v₁ v₂ ctx => rfl, ?_⟩
  · simp [parsed_tags, hh', hl', hq]
  · simp [parse_slug, hh', hl', hq]
  · intro node db siteId ctx₁ ctx₂
    have hbind : ∀ b : TagsBinder, (b.bind ctx₁).bind ctx₂ = b.bind ctx₂ := by
      intro b
      cases b <;> rfl
    simp [TaggedPagesNode.render, hbind]

/-- C7 witness: a bare word evaluates to a dynamic binder. -/
theorem dynamic_binder_fresh_resolution_wit :
    parsed_tags "myvar" = .ok (.dynamic "myvar" []) := by
  have h := (dynamic_binder_fresh_resolution "myvar" 'm' 'r' rfl rfl (by decide)).1
  rw [h]
  rfl

/-- C8: when the bound variable is absent from the render context, a
dynamic tags binder binds to the empty tag list while a dynamic slug
binder fails with a key error. -/
theorem dynamic_missing_var_asymmetry (vn : String) (e : List String) (v : String)
    (ctx : Ctx) (h : ctxGet ctx vn = none) :
    TagsBinder.bind (.dynamic vn e) ctx = .dynamic vn [] ∧
    SlugBinder.bind (.dynamic vn v) ctx = .error vn := by
  constructor
  · simp [TagsBinder.bind, ctxGetD, h]
    rfl
  · simp [SlugBinder.bind, h]

/-- C8 witness: binding against the empty context. -/
theorem dynamic_missing_var_asymmetry_wit :
    TagsBinder.bind (.dynamic "missing" ["stale"]) [] = .dynamic "missing" [] ∧
    SlugBinder.bind (.dynamic "missing" "stale") [] = .error "missing" :=
  dynamic_missing_var_asymmetry "missing" ["stale"] "stale" [] rfl

/-- C9: the `tags_of_pages_with_tags` output does not depend on the order
of the tags in the bound tag list: static binders over permuted tag lists
produce identical context writes over any database and context. -/
theorem tagsOf_permutation_insensitive (l₁ l₂ : List String) (vn : String)
    (db : List PageRec) (siteId : Nat) (ctx : Ctx) (hperm : l₁.Perm l₂) :
    (TagsOfTaggedPagesNode.render ⟨.static l₁, vn⟩ db siteId ctx).2.2 =
      (TagsOfTaggedPagesNode.render ⟨.static l₂, vn⟩ db siteId ctx).2.2 := by
  have hany : ∀ p : PageRec, l₁.any (fun t => p.tags.contains t) =
      l₂.any (fun t => p.tags.contains t) := by
    intro p
    rw [Bool.eq_iff_iff]
    simp only [List.any_eq_true]
    exact ⟨fun ⟨t, ht, h⟩ => ⟨t, hperm.mem_iff.mp ht, h⟩,
      fun ⟨t, ht, h⟩ => ⟨t, hperm.mem_iff.mpr ht, h⟩⟩
  have hfil : getByModel (siteScoped db siteId) l₁ = getByModel (siteScoped db siteId) l₂ := by
    unfold getByModel
    exact List.filter_congr (fun p _ => hany p)
  simp [TagsOfTaggedPagesNode.render, TagsBinder.bind, TagsBinder.value, hfil]

/-- C9 witness: the quoted tag lists `"a b"` and `"b a"` yield the same
write over the example database. -/
theorem tagsOf_permutation_insensitive_wit :
    (TagsOfTaggedPagesNode.render ⟨mkStaticTags "a b", "r"⟩ exampleDb 1 []).2.2 =
      (TagsOfTaggedPagesNode.render ⟨mkStaticTags "b a", "r"⟩ exampleDb 1 []).2.2 :=
  tagsOf_permutation_insensitive (parse_tag_input "a b") (parse_tag_input "b a")
    "r" exampleDb 1 [] (by decide)

/-- C10 counterexample: on the token
`pages_with_tags x limit 2 order alphabetical as r` the parse does not
leave the ordering unset with the whole prefix as the tag argument; the
non-greedy capture stops at `x limit 2` and the order clause, adjacent to
`as`, is matched, so the ordering capture is `alphabetical`. -/
theorem pwt_misplaced_clauses_cex :
    parse_pages_with_tags "pages_with_tags x limit 2 order alphabetical as r" =
      .ok (.dynamic "x limit 2" [], some "alphabetical", none, "r") ∧
    parse_pages_with_tags "pages_with_tags x limit 2 order alphabetical as r" ≠
      .ok (.dynamic "x limit 2 order alphabetical" [], none, none, "r") := by
  have h1 : parse_pages_with_tags "pages_with_tags x limit 2 order alphabetical as r" =
      .ok (.dynamic "x limit 2" [], some "alphabetical", none, "r") := by rfl
  refine ⟨h1, ?_⟩
  rw [h1]
  intro h
  injection h with h2
  simp at h2

/-- C10 amended: the invocation with the limit clause before the order
clause parses without a syntax error; the non-greedy tag capture absorbs
the misplaced limit clause (the tag argument becomes the dynamic binder
named `x limit 2`, so the limit stays unset), while the order clause,
directly preceding `as`, is still matched, so the node is built with
alphabetical ordering. -/
theorem pwt_misplaced_clauses_amended :
    pages_with_tags "pages_with_tags x limit 2 order alphabetical as r" =
      .ok (mkTaggedPagesNode (.dynamic "x limit 2" []) (some "alphabetical") none "r") := by
  rfl

end PageTags
